import Mathlib

/-!
Shallow embedding of `src/src/stores/vectordb/providers/QdrantDBProvider.py`.

The provider is a thin wrapper around an external vector-database client.
We embed the wrapper's own control flow faithfully (Python slicing is
forgiving, Python indexing raises `IndexError`, `range` with step `0`
raises `ValueError`, a `try`/`except` around an upload turns a raised
exception into `return False`).  The client itself is external state: its
collection bookkeeping and its search engine are modelled explicitly as
state passed through each call, following the specification's description
of the engine (`Modelled from the spec:` comments mark those parts).
-/

/-- Dense distance metrics (`models.Distance` values used by the source). -/
inductive Distance
  | cosine
  | dot
deriving DecidableEq, Repr

/-- Configuration of one collection as assembled by `create_collection`
(source lines 49–66): dense vector size and distance, sparse index
`on_disk` flag. -/
structure CollectionConfig where
  denseSize : Nat
  denseDistance : Option Distance
  sparseOnDisk : Bool
deriving DecidableEq, Repr

/-- Modelled from the spec: the client's set of named collections
(the engine's Collection Manager state, missing from `src/`).  Newest
collection is consed in front; lookup takes the front entry. -/
structure ClientState where
  collections : List (String × CollectionConfig)
deriving DecidableEq, Repr

/-- Modelled from the spec: the engine's `exists(name) -> bool`. -/
def clientCollectionExists (st : ClientState) (name : String) : Bool :=
  st.collections.any (fun p => p.1 == name)

/-- Modelled from the spec: the engine creates an empty collection with the
given schema. -/
def clientCreateCollection (st : ClientState) (name : String)
    (cfg : CollectionConfig) : ClientState :=
  ⟨(name, cfg) :: st.collections⟩

/-- Modelled from the spec: the engine removes the named collection and all
its state. -/
def clientDeleteCollection (st : ClientState) (name : String) : ClientState :=
  ⟨st.collections.filter (fun p => p.1 != name)⟩

/-- `__init__` (source lines 9–20): `self.distance_method` starts as `None`
and is only assigned for the two recognised enum values; any other string
leaves it `None` and the constructor still completes. -/
def initDistanceMethod (cosineValue dotValue distance_method : String) :
    Option Distance :=
  if distance_method = cosineValue then some Distance.cosine
  else if distance_method = dotValue then some Distance.dot
  else none

/-- `delete_collection` (source lines 37–39): returns the client's result
(`True`) when the collection exists, otherwise falls off the end of the
function, i.e. returns Python `None` (modelled as `none`) and leaves the
client untouched. -/
def delete_collection (st : ClientState) (name : String) :
    Option Bool × ClientState :=
  if clientCollectionExists st name then
    (some true, clientDeleteCollection st name)
  else (none, st)

/-- `create_collection` (source lines 41–71): on `do_reset` first calls
`delete_collection`; then creates the collection (dense vectors sized
`embedding_size` with `self.distance_method` as distance, sparse index with
`on_disk=False`) only when it does not exist, returning `True`; otherwise
returns `False` without touching the client. -/
def create_collection (distance_method : Option Distance) (st : ClientState)
    (name : String) (embedding_size : Nat) (do_reset : Bool) :
    Bool × ClientState :=
  let st1 := if do_reset then (delete_collection st name).2 else st
  if ¬ clientCollectionExists st1 name then
    (true, clientCreateCollection st1 name ⟨embedding_size, distance_method, false⟩)
  else (false, st1)

/-- Python exceptions that can escape the embedded fragments. -/
inductive PyErr
  | indexError
  | valueError
deriving DecidableEq, Repr

/-- Python `l[x]`: the element, or an uncaught `IndexError`. -/
def pyGet {α : Type} : List α → Nat → Except PyErr α
  | [], _ => Except.error PyErr.indexError
  | a :: _, 0 => Except.ok a
  | _ :: l, n + 1 => pyGet l n

/-- One point as uploaded by `insert_many` (source lines 120–132):
`models.Record(id=…, vector={dense, sparse}, payload={text, metadata})`. -/
structure QRecord (D S M : Type) where
  id : Nat
  dense : D
  sparse : S
  text : String
  metadata : Option M
deriving DecidableEq, Repr

/-- The batch-record list comprehension of `insert_many` (source lines
120–132).  It runs for `x in range(len(batch_texts))` and indexes the other
batch slices positionally, so it raises `IndexError` at the first position
where a parallel slice is exhausted.  Evaluation order inside one record is
id, dense, sparse, text, metadata, matching the Python keyword order. -/
def buildBatchRecords {D S M : Type} :
    List String → List D → List S → List (Option M) → List Nat →
    Except PyErr (List (QRecord D S M))
  | [], _, _, _, _ => Except.ok []
  | t :: ts2, ds, ss, ms, ids =>
    match pyGet ids 0 with
    | Except.error e => Except.error e
    | Except.ok i =>
      match pyGet ds 0 with
      | Except.error e => Except.error e
      | Except.ok d =>
        match pyGet ss 0 with
        | Except.error e => Except.error e
        | Except.ok s =>
          match pyGet ms 0 with
          | Except.error e => Except.error e
          | Except.ok m =>
            match buildBatchRecords ts2 (ds.drop 1) (ss.drop 1) (ms.drop 1) (ids.drop 1) with
            | Except.error e => Except.error e
            | Except.ok rest => Except.ok (⟨i, d, s, t, m⟩ :: rest)

/-- The start indices visited by Python's `range(0, n, b)` for `b > 0`:
`0, b, 2b, …` while `< n` — one entry per batch. -/
def batchStarts (b n : Nat) : List Nat :=
  (List.range ((n + b - 1) / b)).map (fun k => k * b)

/-- The batching loop of `insert_many` (source lines 111–143) with batch
size `b`, iterating over the batch start indices (Python's
`for i in range(0, len(texts), batch_size)`) and slicing each parallel
array as `l[i:i+b]`.  `uploadFails j` says whether the client raises on the
`j`-th `upload_records` call; a successful upload appends the batch to the
client's store (second component).  A raised exception during upload is
caught and turned into `return False`; an exception while building the
batch records escapes (it is outside the `try`). -/
def insertManyLoop {D S M : Type} (uploadFails : Nat → Bool) (b : Nat)
    (ts : List String) (ds : List D) (ss : List S) (ms : List (Option M))
    (ids : List Nat) :
    List Nat → Nat → List (QRecord D S M) →
    Except PyErr Bool × List (QRecord D S M)
  | [], _, store => (Except.ok true, store)
  | i :: rest, j, store =>
    match buildBatchRecords ((ts.drop i).take b) ((ds.drop i).take b)
        ((ss.drop i).take b) ((ms.drop i).take b) ((ids.drop i).take b) with
    | Except.error e => (Except.error e, store)
    | Except.ok recs =>
      if uploadFails j then (Except.ok false, store)
      else insertManyLoop uploadFails b ts ds ss ms ids rest (j + 1) (store ++ recs)

/-- `insert_many` (source lines 100–143).  `metadata = None` defaults to
`[None] * len(texts)`; `record_ids = None` defaults to
`list(range(0, len(texts)))`.  A `batch_size` of `0` makes Python's
`range(0, len(texts), 0)` raise `ValueError`.  The returned list is the
client's store after the call: the records committed by successful uploads,
in order.  The source never consults collection existence here. -/
def insert_many {D S M : Type} (uploadFails : Nat → Bool) (texts : List String)
    (dense_vectors : List D) (sparse_vectors : List S)
    (metadata : Option (List (Option M))) (record_ids : Option (List Nat))
    (batch_size : Nat) : Except PyErr Bool × List (QRecord D S M) :=
  let ms := metadata.getD (List.replicate texts.length none)
  let ids := record_ids.getD (List.range texts.length)
  match batch_size with
  | 0 => (Except.error PyErr.valueError, [])
  | bs1 + 1 =>
    insertManyLoop uploadFails (bs1 + 1) texts dense_vectors sparse_vectors ms ids
      (batchStarts (bs1 + 1) texts.length) 0 []

/-- Pointwise zip of the five parallel arrays into the records the loop
uploads; stops at the first exhausted list. -/
def zipRecords {D S M : Type} :
    List String → List D → List S → List (Option M) → List Nat →
    List (QRecord D S M)
  | t :: ts2, d :: ds, s :: ss, m :: ms, i :: ids =>
    ⟨i, d, s, t, m⟩ :: zipRecords ts2 ds ss ms ids
  | _, _, _, _, _ => []

/-- The score/text pair of the source's `RetrievedDocument` schema
(its defining module is not under `src/`; the spec describes query results
as (score, text) pairs). -/
structure RetrievedDocument where
  score : ℚ
  text : String
deriving DecidableEq, Repr

/-- One scored point of a `query_points` response, with the `"text"` entry
of its stored payload. -/
structure ScoredPoint where
  score : ℚ
  payloadText : String
deriving DecidableEq, Repr

/-- `search_by_vector` (source lines 145–164): the client's `query_points`
response is modelled as the list of scored points it returns; the source
maps them to `RetrievedDocument`s unless the list is empty, in which case
it returns Python `None`. -/
def search_by_vector (points : List ScoredPoint) :
    Option (List RetrievedDocument) :=
  if points.length = 0 then none
  else some (points.map fun p => RetrievedDocument.mk p.score p.payloadText)

/-- Modelled from the spec: 1-based rank of `r` in a ranked list (only
meaningful when `r` is a member). -/
def rankIn {ID : Type} [DecidableEq ID] (r : ID) : List ID → Nat
  | [] => 1
  | x :: xs => if x = r then 1 else rankIn r xs + 1

/-- Modelled from the spec: the contribution of one ranked list to a
record's RRF score, `1 / (k + rank)` when the record appears in the list
and `0` otherwise. -/
def rrfContrib {ID : Type} [DecidableEq ID] (k : Nat) (l : List ID) (r : ID) : ℚ :=
  if r ∈ l then 1 / ((k : ℚ) + (rankIn r l : ℚ)) else 0

/-- Modelled from the spec: the RRF score of a record over the dense and
sparse ranked lists. -/
def rrfScore {ID : Type} [DecidableEq ID] (k : Nat) (d s : List ID) (r : ID) : ℚ :=
  rrfContrib k d r + rrfContrib k s r

/-- Insert into a list kept in descending score order (stable). -/
def insertRanked {ID : Type} (score : ID → ℚ) (x : ID) : List ID → List ID
  | [] => [x]
  | y :: ys => if score y < score x then x :: y :: ys else y :: insertRanked score x ys

/-- Sort a candidate list by descending score (insertion sort, stable). -/
def sortByScore {ID : Type} (score : ID → ℚ) (l : List ID) : List ID :=
  l.foldr (insertRanked score) []

/-- Modelled from the spec: Reciprocal Rank Fusion of the two prefetched
ranked lists — every record of either list is scored by `rrfScore`, the
deduplicated candidates are sorted by descending score and truncated to
`limit`. -/
def rrfFuse {ID : Type} [DecidableEq ID] (k : Nat) (d s : List ID) (limit : Nat) :
    List ID :=
  (sortByScore (rrfScore k d s) (d ++ s).dedup).take limit

/-- `search_hybrid` (source lines 167–201): the two prefetch sub-searches
are modelled as the ranked candidate lists the engine would return,
truncated to `dense_limit` / `sparse_limit`; the engine's
`FusionQuery(fusion=RRF)` is modelled from the spec as `rrfFuse` with the
standard constant k = 60; each returned point carries its fused score and
the `"text"` entry of its payload; an empty result list becomes `None`. -/
def search_hybrid {ID : Type} [DecidableEq ID] (payloadText : ID → String)
    (denseRanked sparseRanked : List ID)
    (dense_limit sparse_limit limit : Nat) : Option (List (ℚ × String)) :=
  let d := denseRanked.take dense_limit
  let s := sparseRanked.take sparse_limit
  let fused := rrfFuse 60 d s limit
  if fused.length = 0 then none
  else some (fused.map fun r => (rrfScore 60 d s r, payloadText r))

/-- Payload store for the spec's worked RRF example: ids 0..3 carry the
texts "A".."D". -/
def abcdPayload : Nat → String :=
  fun i => ["A", "B", "C", "D"].getD i ""

deriving instance DecidableEq for Except

/-! ### Helper lemmas about the batch construction -/

lemma zipRecords_nil {D S M : Type} (ds : List D) (ss : List S)
    (ms : List (Option M)) (ids : List Nat) :
    zipRecords [] ds ss ms ids = [] := by
  cases ds <;> cases ss <;> cases ms <;> cases ids <;> rfl

lemma buildBatchRecords_ok {D S M : Type} :
    ∀ (ts : List String) (ds : List D) (ss : List S) (ms : List (Option M))
      (ids : List Nat),
      ts.length ≤ ds.length → ts.length ≤ ss.length →
      ts.length ≤ ms.length → ts.length ≤ ids.length →
      buildBatchRecords ts ds ss ms ids = Except.ok (zipRecords ts ds ss ms ids)
  | [], ds, ss, ms, ids, _, _, _, _ => by
    simp [buildBatchRecords, zipRecords_nil]
  | t :: ts2, ds, ss, ms, ids, hd, hs, hm, hi => by
    match ds, ss, ms, ids, hd, hs, hm, hi with
    | d :: ds2, s :: ss2, m :: ms2, i :: ids2, hd, hs, hm, hi =>
      have ih := buildBatchRecords_ok ts2 ds2 ss2 ms2 ids2
        (by simpa using hd) (by simpa using hs) (by simpa using hm) (by simpa using hi)
      simp [buildBatchRecords, pyGet, ih, zipRecords]

lemma buildBatchRecords_exn {D S M : Type} :
    ∀ (ts : List String) (ds : List D) (ss : List S) (ms : List (Option M))
      (ids : List Nat),
      min ds.length ss.length < ts.length →
      ts.length ≤ ms.length → ts.length ≤ ids.length →
      buildBatchRecords ts ds ss ms ids = Except.error PyErr.indexError
  | [], ds, ss, ms, ids, h, _, _ => by simp at h
  | t :: ts2, ds, ss, ms, ids, h, hm, hi => by
    match ms, ids, hm, hi with
    | m :: ms2, i :: ids2, hm, hi =>
      match ds, ss with
      | [], ss => simp [buildBatchRecords, pyGet]
      | d :: ds2, [] => simp [buildBatchRecords, pyGet]
      | d :: ds2, s :: ss2 =>
        have ih := buildBatchRecords_exn ts2 ds2 ss2 ms2 ids2
          (by simp at h ⊢; omega) (by simpa using hm) (by simpa using hi)
        simp [buildBatchRecords, pyGet, ih]

lemma zipRecords_append {D S M : Type} :
    ∀ (ts1 : List String) (ds1 : List D) (ss1 : List S) (ms1 : List (Option M))
      (ids1 : List Nat) (ts2 : List String) (ds2 : List D) (ss2 : List S)
      (ms2 : List (Option M)) (ids2 : List Nat),
      ds1.length = ts1.length → ss1.length = ts1.length →
      ms1.length = ts1.length → ids1.length = ts1.length →
      zipRecords (ts1 ++ ts2) (ds1 ++ ds2) (ss1 ++ ss2) (ms1 ++ ms2) (ids1 ++ ids2)
        = zipRecords ts1 ds1 ss1 ms1 ids1 ++ zipRecords ts2 ds2 ss2 ms2 ids2
  | [], ds1, ss1, ms1, ids1, ts2, ds2, ss2, ms2, ids2, hd, hs, hm, hi => by
    match ds1, ss1, ms1, ids1, hd, hs, hm, hi with
    | [], [], [], [], _, _, _, _ => simp [zipRecords_nil]
  | t :: ts1, ds1, ss1, ms1, ids1, ts2, ds2, ss2, ms2, ids2, hd, hs, hm, hi => by
    match ds1, ss1, ms1, ids1, hd, hs, hm, hi with
    | d :: ds1, s :: ss1, m :: ms1, i :: ids1, hd, hs, hm, hi =>
      have ih := zipRecords_append ts1 ds1 ss1 ms1 ids1 ts2 ds2 ss2 ms2 ids2
        (by simpa using hd) (by simpa using hs) (by simpa using hm) (by simpa using hi)
      simp [zipRecords, ih]

lemma zipRecords_map_id {D S M : Type} :
    ∀ (ts : List String) (ds : List D) (ss : List S) (ms : List (Option M))
      (ids : List Nat),
      ds.length = ts.length → ss.length = ts.length →
      ms.length = ts.length → ids.length = ts.length →
      (zipRecords ts ds ss ms ids).map QRecord.id = ids
  | [], ds, ss, ms, ids, hd, hs, hm, hi => by
    match ds, ss, ms, ids, hd, hs, hm, hi with
    | [], [], [], [], _, _, _, _ => simp [zipRecords_nil]
  | t :: ts2, ds, ss, ms, ids, hd, hs, hm, hi => by
    match ds, ss, ms, ids, hd, hs, hm, hi with
    | d :: ds2, s :: ss2, m :: ms2, i :: ids2, hd, hs, hm, hi =>
      have ih := zipRecords_map_id ts2 ds2 ss2 ms2 ids2
        (by simpa using hd) (by simpa using hs) (by simpa using hm) (by simpa using hi)
      simp [zipRecords, ih]

lemma ceil_mul_ge (b n : Nat) (hb : 0 < b) : n ≤ ((n + b - 1) / b) * b := by
  rcases Nat.eq_zero_or_pos n with h0 | h0
  · simp [h0]
  by_contra h
  push_neg at h
  have h2 : ((n + b - 1) / b + 1) * b ≤ n + b - 1 := by
    have hsm : ((n + b - 1) / b + 1) * b = (n + b - 1) / b * b + b :=
      Nat.succ_mul _ _
    omega
  have h3 : (n + b - 1) / b + 1 ≤ (n + b - 1) / b :=
    (Nat.le_div_iff_mul_le hb).mpr h2
  omega

lemma lt_ceil_of_mul_lt (b n j : Nat) (hb : 0 < b) (h : j * b < n) :
    j < (n + b - 1) / b := by
  have h2 : (j + 1) * b ≤ n + b - 1 := by
    have hsm : (j + 1) * b = j * b + b := Nat.succ_mul _ _
    omega
  have h3 : j + 1 ≤ (n + b - 1) / b := (Nat.le_div_iff_mul_le hb).mpr h2
  omega

lemma zipRecords_take_drop {D S M : Type} (b : Nat) (ts : List String)
    (ds : List D) (ss : List S) (ms : List (Option M)) (ids : List Nat)
    (hd : ds.length = ts.length) (hs : ss.length = ts.length)
    (hm : ms.length = ts.length) (hi : ids.length = ts.length) :
    zipRecords (ts.take b) (ds.take b) (ss.take b) (ms.take b) (ids.take b)
      ++ zipRecords (ts.drop b) (ds.drop b) (ss.drop b) (ms.drop b) (ids.drop b)
      = zipRecords ts ds ss ms ids := by
  have h := zipRecords_append (ts.take b) (ds.take b) (ss.take b) (ms.take b)
    (ids.take b) (ts.drop b) (ds.drop b) (ss.drop b) (ms.drop b) (ids.drop b)
    (by simp [hd]) (by simp [hs]) (by simp [hm]) (by simp [hi])
  rw [List.take_append_drop, List.take_append_drop, List.take_append_drop,
    List.take_append_drop, List.take_append_drop] at h
  exact h.symm

lemma zipRecords_take_add {D S M : Type} (b t : Nat) (ts : List String)
    (ds : List D) (ss : List S) (ms : List (Option M)) (ids : List Nat)
    (hd : (ds.take b).length = (ts.take b).length)
    (hs : (ss.take b).length = (ts.take b).length)
    (hm : (ms.take b).length = (ts.take b).length)
    (hi : (ids.take b).length = (ts.take b).length) :
    zipRecords (ts.take (b + t)) (ds.take (b + t)) (ss.take (b + t))
      (ms.take (b + t)) (ids.take (b + t))
      = zipRecords (ts.take b) (ds.take b) (ss.take b) (ms.take b) (ids.take b)
        ++ zipRecords ((ts.drop b).take t) ((ds.drop b).take t)
          ((ss.drop b).take t) ((ms.drop b).take t) ((ids.drop b).take t) := by
  rw [List.take_add, List.take_add, List.take_add, List.take_add, List.take_add]
  exact zipRecords_append _ _ _ _ _ _ _ _ _ _ hd hs hm hi

lemma insertManyLoop_ok {D S M : Type} (u : Nat → Bool) (b : Nat)
    (ts : List String) (ds : List D) (ss : List S) (ms : List (Option M))
    (ids : List Nat) (hu : ∀ k, u k = false)
    (hd : ds.length = ts.length) (hs : ss.length = ts.length)
    (hm : ms.length = ts.length) (hi : ids.length = ts.length) :
    ∀ (c j : Nat) (store : List (QRecord D S M)),
      ts.length ≤ (j + c) * b →
      insertManyLoop u b ts ds ss ms ids
          ((List.range' j c).map (fun k => k * b)) j store
        = (Except.ok true,
           store ++ zipRecords (ts.drop (j * b)) (ds.drop (j * b))
             (ss.drop (j * b)) (ms.drop (j * b)) (ids.drop (j * b)))
  | 0, j, store, hcov => by
    have hts : ts.drop (j * b) = [] := by
      apply List.drop_eq_nil_of_le
      simpa using hcov
    simp [insertManyLoop, hts, zipRecords_nil]
  | c + 1, j, store, hcov => by
    have hbuild := buildBatchRecords_ok ((ts.drop (j * b)).take b)
      ((ds.drop (j * b)).take b) ((ss.drop (j * b)).take b)
      ((ms.drop (j * b)).take b) ((ids.drop (j * b)).take b)
      (by simp [hd]) (by simp [hs]) (by simp [hm]) (by simp [hi])
    have ih := insertManyLoop_ok u b ts ds ss ms ids hu hd hs hm hi c (j + 1)
      (store ++ zipRecords ((ts.drop (j * b)).take b) ((ds.drop (j * b)).take b)
        ((ss.drop (j * b)).take b) ((ms.drop (j * b)).take b)
        ((ids.drop (j * b)).take b))
      (by
        have : (j + (c + 1)) * b = (j + 1 + c) * b := by ring
        omega)
    rw [List.range'_succ, List.map_cons, insertManyLoop, hbuild]
    simp only [hu j, Bool.false_eq_true, if_false]
    rw [ih, List.append_assoc]
    have hdr : ∀ (α : Type) (l : List α), l.drop ((j + 1) * b) = (l.drop (j * b)).drop b := by
      intro α l
      rw [List.drop_drop]
      congr 1
      ring
    rw [hdr _ ts, hdr _ ds, hdr _ ss, hdr _ ms, hdr _ ids]
    rw [zipRecords_take_drop b (ts.drop (j * b)) (ds.drop (j * b)) (ss.drop (j * b))
      (ms.drop (j * b)) (ids.drop (j * b)) (by simp [hd]) (by simp [hs])
      (by simp [hm]) (by simp [hi])]

lemma insertManyLoop_fail {D S M : Type} (u : Nat → Bool) (b : Nat)
    (ts : List String) (ds : List D) (ss : List S) (ms : List (Option M))
    (ids : List Nat)
    (hd : ds.length = ts.length) (hs : ss.length = ts.length)
    (hm : ms.length = ts.length) (hi : ids.length = ts.length) :
    ∀ (t c j : Nat) (store : List (QRecord D S M)),
      u (j + t) = true → (∀ k, k < t → u (j + k) = false) → t < c →
      insertManyLoop u b ts ds ss ms ids
          ((List.range' j c).map (fun k => k * b)) j store
        = (Except.ok false,
           store ++ zipRecords ((ts.drop (j * b)).take (t * b))
             ((ds.drop (j * b)).take (t * b)) ((ss.drop (j * b)).take (t * b))
             ((ms.drop (j * b)).take (t * b)) ((ids.drop (j * b)).take (t * b)))
  | t, 0, j, store, _, _, hlt => absurd hlt (by omega)
  | 0, c + 1, j, store, hfail, _, _ => by
    have hbuild := buildBatchRecords_ok ((ts.drop (j * b)).take b)
      ((ds.drop (j * b)).take b) ((ss.drop (j * b)).take b)
      ((ms.drop (j * b)).take b) ((ids.drop (j * b)).take b)
      (by simp [hd]) (by simp [hs]) (by simp [hm]) (by simp [hi])
    rw [List.range'_succ, List.map_cons, insertManyLoop, hbuild]
    simp only [Nat.add_zero] at hfail
    simp [hfail, zipRecords_nil]
  | t + 1, c + 1, j, store, hfail, hbefore, hlt => by
    have hbuild := buildBatchRecords_ok ((ts.drop (j * b)).take b)
      ((ds.drop (j * b)).take b) ((ss.drop (j * b)).take b)
      ((ms.drop (j * b)).take b) ((ids.drop (j * b)).take b)
      (by simp [hd]) (by simp [hs]) (by simp [hm]) (by simp [hi])
    have ih := insertManyLoop_fail u b ts ds ss ms ids hd hs hm hi t c (j + 1)
      (store ++ zipRecords ((ts.drop (j * b)).take b) ((ds.drop (j * b)).take b)
        ((ss.drop (j * b)).take b) ((ms.drop (j * b)).take b)
        ((ids.drop (j * b)).take b))
      (by
        have he : j + 1 + t = j + (t + 1) := by omega
        rw [he]
        exact hfail)
      (by
        intro k hk
        have he : j + 1 + k = j + (k + 1) := by omega
        rw [he]
        exact hbefore (k + 1) (by omega))
      (by omega)
    rw [List.range'_succ, List.map_cons, insertManyLoop, hbuild]
    have hj0 : u j = false := by
      have := hbefore 0 (by omega)
      simpa using this
    simp only [hj0, Bool.false_eq_true, if_false]
    rw [ih, List.append_assoc]
    congr 1
    have hdr : ∀ (α : Type) (l : List α),
        l.drop ((j + 1) * b) = (l.drop (j * b)).drop b := by
      intro α l
      rw [List.drop_drop]
      congr 1
      ring
    rw [hdr _ ts, hdr _ ds, hdr _ ss, hdr _ ms, hdr _ ids]
    have htt : (t + 1) * b = b + t * b := by ring
    rw [htt, zipRecords_take_add b (t * b) (ts.drop (j * b)) (ds.drop (j * b))
      (ss.drop (j * b)) (ms.drop (j * b)) (ids.drop (j * b))
      (by simp [hd]) (by simp [hs]) (by simp [hm]) (by simp [hi])]

lemma insertManyLoop_exn {D S M : Type} (u : Nat → Bool) (b : Nat)
    (ts : List String) (ds : List D) (ss : List S) (ms : List (Option M))
    (ids : List Nat) (hu : ∀ k, u k = false)
    (hm : ms.length = ts.length) (hi : ids.length = ts.length) :
    ∀ (t c j : Nat) (store : List (QRecord D S M)),
      (j + t) * b ≤ min ds.length ss.length →
      min ds.length ss.length < ts.length →
      min ds.length ss.length < (j + t + 1) * b →
      t < c →
      insertManyLoop u b ts ds ss ms ids
          ((List.range' j c).map (fun k => k * b)) j store
        = (Except.error PyErr.indexError,
           store ++ zipRecords ((ts.drop (j * b)).take (t * b))
             ((ds.drop (j * b)).take (t * b)) ((ss.drop (j * b)).take (t * b))
             ((ms.drop (j * b)).take (t * b)) ((ids.drop (j * b)).take (t * b)))
  | t, 0, j, store, _, _, _, hlt => absurd hlt (by omega)
  | 0, c + 1, j, store, h1, h2, h3, _ => by
    have hsm : (j + 1) * b = j * b + b := Nat.succ_mul _ _
    simp only [Nat.add_zero] at h1 h3
    have hexn := buildBatchRecords_exn ((ts.drop (j * b)).take b)
      ((ds.drop (j * b)).take b) ((ss.drop (j * b)).take b)
      ((ms.drop (j * b)).take b) ((ids.drop (j * b)).take b)
      (by simp only [List.length_take, List.length_drop]; omega)
      (by simp [hm]) (by simp [hi])
    rw [List.range'_succ, List.map_cons, insertManyLoop, hexn]
    simp [zipRecords_nil]
  | t + 1, c + 1, j, store, h1, h2, h3, hlt => by
    have hsm2 : (j + t + 1) * b = (j + t) * b + b := Nat.succ_mul _ _
    have hmono : j * b ≤ (j + t) * b := Nat.mul_le_mul_right b (by omega)
    have h1' : (j + t + 1) * b ≤ min ds.length ss.length := by
      have he : (j + (t + 1)) * b = (j + t + 1) * b := by ring
      rw [he] at h1
      exact h1
    have h3' : min ds.length ss.length < (j + t + 2) * b := by
      have he : (j + (t + 1) + 1) * b = (j + t + 2) * b := by ring
      rw [he] at h3
      exact h3
    have hbuild := buildBatchRecords_ok ((ts.drop (j * b)).take b)
      ((ds.drop (j * b)).take b) ((ss.drop (j * b)).take b)
      ((ms.drop (j * b)).take b) ((ids.drop (j * b)).take b)
      (by
        simp only [List.length_take, List.length_drop, hm, hi]
        omega)
      (by
        simp only [List.length_take, List.length_drop, hm, hi]
        omega)
      (by simp [hm]) (by simp [hi])
    have ih := insertManyLoop_exn u b ts ds ss ms ids hu hm hi t c (j + 1)
      (store ++ zipRecords ((ts.drop (j * b)).take b) ((ds.drop (j * b)).take b)
        ((ss.drop (j * b)).take b) ((ms.drop (j * b)).take b)
        ((ids.drop (j * b)).take b))
      (by
        have he : (j + 1 + t) * b = (j + t + 1) * b := by ring
        rw [he]
        omega)
      h2
      (by
        have he : (j + 1 + t + 1) * b = (j + t + 2) * b := by ring
        rw [he]
        omega)
      (by omega)
    rw [List.range'_succ, List.map_cons, insertManyLoop, hbuild]
    simp only [hu j, Bool.false_eq_true, if_false]
    rw [ih, List.append_assoc]
    congr 1
    have hdr : ∀ (α : Type) (l : List α),
        l.drop ((j + 1) * b) = (l.drop (j * b)).drop b := by
      intro α l
      rw [List.drop_drop]
      congr 1
      ring
    rw [hdr _ ts, hdr _ ds, hdr _ ss, hdr _ ms, hdr _ ids]
    have htt : (t + 1) * b = b + t * b := by ring
    rw [htt, zipRecords_take_add b (t * b) (ts.drop (j * b)) (ds.drop (j * b))
      (ss.drop (j * b)) (ms.drop (j * b)) (ids.drop (j * b))
      (by
        simp only [List.length_take, List.length_drop, hm, hi]
        omega)
      (by
        simp only [List.length_take, List.length_drop, hm, hi]
        omega)
      (by simp [hm]) (by simp [hi])]

lemma lt_div_succ_mul (p b : Nat) (hb : 0 < b) : p < (p / b + 1) * b := by
  have h1 := Nat.div_add_mod p b
  rw [Nat.mul_comm] at h1
  have h2 : p % b < b := Nat.mod_lt _ hb
  have hsm : (p / b + 1) * b = p / b * b + b := Nat.succ_mul _ _
  omega

/-! ### Claim theorems about `insert_many` -/

/-- C1: if the upload of batch `j` (batches are taken in order as slices of
`batch_size` records) raises while all earlier uploads succeed, then
`insert_many` returns `False` immediately: exactly the records of batches
`0 … j-1` are committed in the client store (no rollback), and no later
batch is attempted — the final store is independent of the oracle's answers
beyond batch `j`. -/
theorem insert_many_upload_failure_aborts {D S M : Type} (u : Nat → Bool)
    (texts : List String) (dense_vectors : List D) (sparse_vectors : List S)
    (batch_size j : Nat) (hb : 0 < batch_size) (hfail : u j = true)
    (hbefore : ∀ k, k < j → u k = false)
    (hj : j * batch_size < texts.length)
    (hd : dense_vectors.length = texts.length)
    (hs : sparse_vectors.length = texts.length) :
    insert_many u texts dense_vectors sparse_vectors
        (none : Option (List (Option M))) none batch_size
      = (Except.ok false,
         zipRecords (texts.take (j * batch_size))
           (dense_vectors.take (j * batch_size))
           (sparse_vectors.take (j * batch_size))
           (List.replicate (j * batch_size) none)
           (List.range (j * batch_size))) := by
  obtain ⟨bs1, rfl⟩ : ∃ m, batch_size = m + 1 := ⟨batch_size - 1, by omega⟩
  have hloop := insertManyLoop_fail (M := M) u (bs1 + 1) texts dense_vectors
    sparse_vectors (List.replicate texts.length none)
    (List.range texts.length) hd hs (by simp) (by simp)
    j ((texts.length + (bs1 + 1) - 1) / (bs1 + 1)) 0 []
    (by simpa using hfail)
    (by intro k hk; simpa using hbefore k hk)
    (lt_ceil_of_mul_lt (bs1 + 1) texts.length j (by omega) hj)
  rw [← List.range_eq_range'] at hloop
  simp only [insert_many, batchStarts, Option.getD_none]
  rw [hloop]
  simp [List.take_replicate, List.take_range, Nat.min_eq_left (Nat.le_of_lt hj)]

/-- Witness for C1 at a concrete input: four records, batch size 2, the
second upload raises; the first batch stays committed and the call
returns `False`. -/
theorem insert_many_upload_failure_aborts_witness :
    insert_many (fun k => k == 1) ["a", "b", "c", "d"] [10, 20, 30, 40]
        [(1 : Nat), 2, 3, 4] (none : Option (List (Option Nat))) none 2
      = (Except.ok false,
         zipRecords (["a", "b", "c", "d"].take 2)
           ([10, 20, 30, 40].take 2) ([(1 : Nat), 2, 3, 4].take 2)
           (List.replicate 2 none) (List.range 2)) := by
  have h := insert_many_upload_failure_aborts (M := Nat) (fun k => k == 1)
    ["a", "b", "c", "d"] [10, 20, 30, 40] [(1 : Nat), 2, 3, 4] 2 1
    (by decide) (by decide) (by decide) (by decide) (by decide) (by decide)
  simpa using h

/-- C8: when `record_ids` is omitted, `insert_many` assigns the sequential
integer ids `0, 1, …, len(texts) - 1` in input order: with all uploads
succeeding, the committed records are exactly the input rows zipped with
ids `range (len texts)`, and the id column of the final store is
`range (len texts)`. -/
theorem insert_many_default_ids {D S M : Type} (u : Nat → Bool)
    (texts : List String) (dense_vectors : List D) (sparse_vectors : List S)
    (batch_size : Nat) (hb : 0 < batch_size) (hu : ∀ k, u k = false)
    (hd : dense_vectors.length = texts.length)
    (hs : sparse_vectors.length = texts.length) :
    insert_many u texts dense_vectors sparse_vectors
        (none : Option (List (Option M))) none batch_size
      = (Except.ok true,
         zipRecords texts dense_vectors sparse_vectors
           (List.replicate texts.length none) (List.range texts.length))
    ∧ (insert_many u texts dense_vectors sparse_vectors
        (none : Option (List (Option M))) none batch_size).2.map QRecord.id
      = List.range texts.length := by
  obtain ⟨bs1, rfl⟩ : ∃ m, batch_size = m + 1 := ⟨batch_size - 1, by omega⟩
  have hloop := insertManyLoop_ok (M := M) u (bs1 + 1) texts dense_vectors
    sparse_vectors (List.replicate texts.length none)
    (List.range texts.length) hu hd hs (by simp) (by simp)
    ((texts.length + (bs1 + 1) - 1) / (bs1 + 1)) 0 []
    (by simpa using ceil_mul_ge (bs1 + 1) texts.length (by omega))
  have hmain : insert_many u texts dense_vectors sparse_vectors
      (none : Option (List (Option M))) none (bs1 + 1)
      = (Except.ok true,
         zipRecords texts dense_vectors sparse_vectors
           (List.replicate texts.length none) (List.range texts.length)) := by
    rw [← List.range_eq_range'] at hloop
    simp only [insert_many, batchStarts, Option.getD_none]
    rw [hloop]
    simp
  refine ⟨hmain, ?_⟩
  rw [hmain]
  exact zipRecords_map_id texts dense_vectors sparse_vectors
    (List.replicate texts.length none) (List.range texts.length)
    hd hs (by simp) (by simp)

/-- Witness for C8 at a concrete input: three records, batch size 2, no
failures; the store gets ids 0, 1, 2 in order. -/
theorem insert_many_default_ids_witness :
    insert_many (fun _ => false) ["a", "b", "c"] [10, 20, 30]
        [(7 : Nat), 8, 9] (none : Option (List (Option Nat))) none 2
      = (Except.ok true,
         zipRecords ["a", "b", "c"] [10, 20, 30] [(7 : Nat), 8, 9]
           (List.replicate 3 none) (List.range 3))
    ∧ (insert_many (fun _ => false) ["a", "b", "c"] [10, 20, 30]
        [(7 : Nat), 8, 9] (none : Option (List (Option Nat))) none 2).2.map
          QRecord.id
      = List.range 3 := by
  have h := insert_many_default_ids (M := Nat) (fun _ => false)
    ["a", "b", "c"] [10, 20, 30] [(7 : Nat), 8, 9] 2
    (by decide) (fun k => rfl) (by decide) (by decide)
  simpa using h

/-- C10: `insert_many` on an empty `texts` list performs no upload call at
all — the result holds for every upload oracle and the store stays empty —
and returns `True`; the source never consults collection existence in
`insert_many`. -/
theorem insert_many_empty_texts {D S M : Type} (u : Nat → Bool)
    (batch_size : Nat) (hb : 0 < batch_size) :
    insert_many u ([] : List String) ([] : List D) ([] : List S)
        (none : Option (List (Option M))) none batch_size
      = (Except.ok true, []) := by
  obtain ⟨bs1, rfl⟩ : ∃ m, batch_size = m + 1 := ⟨batch_size - 1, by omega⟩
  have hdiv : bs1 / (bs1 + 1) = 0 := Nat.div_eq_of_lt (by omega)
  simp [insert_many, batchStarts, hdiv, insertManyLoop]

/-- Witness for C10 at the source's default batch size 50. -/
theorem insert_many_empty_texts_witness :
    insert_many (fun _ => true) ([] : List String) ([] : List Nat)
        ([] : List Nat) (none : Option (List (Option Nat))) none 50
      = (Except.ok true, []) :=
  insert_many_empty_texts (fun _ => true) 50 (by decide)

/-- C4 counterexample: with texts `["a","b"]`, two dense vectors but only
one sparse vector and `batch_size = 1`, the claim "the call fails before
any write is performed: no batch is uploaded" is false — the first batch IS
uploaded (the final store is non-empty) and the call then raises an
uncaught `IndexError` while building the second batch (the record
comprehension is outside the `try`), rather than returning `False`. -/
theorem insert_many_mismatch_counterexample :
    insert_many (fun _ => false) ["a", "b"] [(10 : Nat), 20] [(5 : Nat)]
        (none : Option (List (Option Nat))) none 1
      = (Except.error PyErr.indexError, [⟨0, 10, 5, "a", none⟩])
    ∧ (insert_many (fun _ => false) ["a", "b"] [(10 : Nat), 20] [(5 : Nat)]
        (none : Option (List (Option Nat))) none 1).2 ≠ [] := by
  constructor
  · decide
  · decide

/-- C4 as amended: when the shorter of `dense_vectors` and `sparse_vectors`
ends at position `p < len(texts)` (with metadata and ids defaulted and all
uploads succeeding), `insert_many` raises an uncaught `IndexError` while
building batch `p / batch_size` — it does not return `False` — and every
earlier batch has already been uploaded and stays committed: the final
store holds exactly the first `(p / batch_size) * batch_size` records. -/
theorem insert_many_mismatch_raises {D S M : Type} (u : Nat → Bool)
    (texts : List String) (dense_vectors : List D) (sparse_vectors : List S)
    (batch_size : Nat) (hb : 0 < batch_size) (hu : ∀ k, u k = false)
    (hlen : min dense_vectors.length sparse_vectors.length < texts.length) :
    insert_many u texts dense_vectors sparse_vectors
        (none : Option (List (Option M))) none batch_size
      = (Except.error PyErr.indexError,
         zipRecords
           (texts.take (min dense_vectors.length sparse_vectors.length
              / batch_size * batch_size))
           (dense_vectors.take (min dense_vectors.length sparse_vectors.length
              / batch_size * batch_size))
           (sparse_vectors.take (min dense_vectors.length sparse_vectors.length
              / batch_size * batch_size))
           (List.replicate (min dense_vectors.length sparse_vectors.length
              / batch_size * batch_size) none)
           (List.range (min dense_vectors.length sparse_vectors.length
              / batch_size * batch_size))) := by
  obtain ⟨bs1, rfl⟩ : ∃ m, batch_size = m + 1 := ⟨batch_size - 1, by omega⟩
  have hqb : min dense_vectors.length sparse_vectors.length / (bs1 + 1) * (bs1 + 1)
      ≤ min dense_vectors.length sparse_vectors.length :=
    Nat.div_mul_le_self _ _
  have hloop := insertManyLoop_exn (M := M) u (bs1 + 1) texts dense_vectors
    sparse_vectors (List.replicate texts.length none)
    (List.range texts.length) hu (by simp) (by simp)
    (min dense_vectors.length sparse_vectors.length / (bs1 + 1))
    ((texts.length + (bs1 + 1) - 1) / (bs1 + 1)) 0 []
    (by simpa using hqb)
    hlen
    (by
      have h := lt_div_succ_mul
        (min dense_vectors.length sparse_vectors.length) (bs1 + 1) (by omega)
      simpa using h)
    (lt_ceil_of_mul_lt (bs1 + 1) texts.length _ (by omega) (by omega))
  rw [← List.range_eq_range'] at hloop
  simp only [insert_many, batchStarts, Option.getD_none]
  rw [hloop]
  simp [List.take_replicate, List.take_range, Nat.min_eq_left (by omega : 
    min dense_vectors.length sparse_vectors.length / (bs1 + 1) * (bs1 + 1)
      ≤ texts.length)]

/-- Witness for the amended C4 at a concrete input: texts of length 2, one
sparse vector, batch size 1; the first batch is committed, then the call
raises `IndexError`. -/
theorem insert_many_mismatch_raises_witness :
    insert_many (fun _ => false) ["a", "b"] [(10 : Nat), 20] [(5 : Nat)]
        (none : Option (List (Option Nat))) none 1
      = (Except.error PyErr.indexError,
         zipRecords (["a", "b"].take 1) ([(10 : Nat), 20].take 1)
           ([(5 : Nat)].take 1) (List.replicate 1 none) (List.range 1)) := by
  have h := insert_many_mismatch_raises (M := Nat) (fun _ => false)
    ["a", "b"] [(10 : Nat), 20] [(5 : Nat)] 1 (by decide) (fun k => rfl)
    (by decide)
  simpa using h

/-! ### Helper lemmas about the collection model -/

lemma clientCollectionExists_create (st : ClientState) (name : String)
    (cfg : CollectionConfig) :
    clientCollectionExists (clientCreateCollection st name cfg) name = true := by
  simp [clientCollectionExists, clientCreateCollection]

lemma clientCollectionExists_delete (st : ClientState) (name : String) :
    clientCollectionExists (clientDeleteCollection st name) name = false := by
  simp only [clientCollectionExists, clientDeleteCollection]
  rw [Bool.eq_false_iff]
  intro h
  rw [List.any_eq_true] at h
  obtain ⟨p, hp, heq⟩ := h
  have hne := (List.mem_filter.mp hp).2
  rw [bne_iff_ne] at hne
  rw [beq_iff_eq] at heq
  exact hne heq

lemma lookup_clientCreate (st : ClientState) (name : String)
    (cfg : CollectionConfig) :
    (clientCreateCollection st name cfg).collections.lookup name = some cfg := by
  simp [clientCreateCollection, List.lookup]

lemma exists_after_delete (st : ClientState) (name : String) :
    clientCollectionExists (delete_collection st name).2 name = false := by
  unfold delete_collection
  cases h : clientCollectionExists st name with
  | true => simp [h, clientCollectionExists_delete]
  | false => simp [h]

lemma lookup_create_reset (dist : Option Distance) (st : ClientState)
    (name : String) (size : Nat) :
    ((create_collection dist st name size true).2).collections.lookup name
      = some ⟨size, dist, false⟩ := by
  unfold create_collection
  simp [exists_after_delete, lookup_clientCreate]

/-! ### Claim theorems about the collection operations -/

/-- C3: starting from a state without the collection, `create_collection`
returns `True` on the first call; a second call with `do_reset = false`
returns `False` and leaves the whole client state unchanged; a second call
with `do_reset = true` instead deletes the existing collection first,
returns `True`, and the collection afterwards carries the freshly created
configuration. -/
theorem create_collection_twice_semantics (dist : Option Distance)
    (st : ClientState) (name : String) (size size2 : Nat)
    (h : clientCollectionExists st name = false) :
    (create_collection dist st name size false).1 = true
    ∧ create_collection dist (create_collection dist st name size false).2
        name size2 false
      = (false, (create_collection dist st name size false).2)
    ∧ (create_collection dist (create_collection dist st name size false).2
        name size2 true).1 = true
    ∧ ((create_collection dist (create_collection dist st name size false).2
        name size2 true).2).collections.lookup name
      = some ⟨size2, dist, false⟩ := by
  have h1 : create_collection dist st name size false
      = (true, clientCreateCollection st name ⟨size, dist, false⟩) := by
    simp [create_collection, h]
  refine ⟨by rw [h1], ?_, ?_, ?_⟩
  · rw [h1]
    simp [create_collection, clientCollectionExists_create]
  · rw [h1]
    simp [create_collection, exists_after_delete]
  · rw [h1]
    exact lookup_create_reset dist _ name size2

/-- Witness for C3 on the empty client state. -/
theorem create_collection_twice_semantics_witness :
    (create_collection none ⟨[]⟩ "c" 4 false).1 = true
    ∧ create_collection none (create_collection none ⟨[]⟩ "c" 4 false).2
        "c" 5 false
      = (false, (create_collection none ⟨[]⟩ "c" 4 false).2)
    ∧ (create_collection none (create_collection none ⟨[]⟩ "c" 4 false).2
        "c" 5 true).1 = true
    ∧ ((create_collection none (create_collection none ⟨[]⟩ "c" 4 false).2
        "c" 5 true).2).collections.lookup "c"
      = some ⟨5, none, false⟩ :=
  create_collection_twice_semantics none ⟨[]⟩ "c" 4 5 (by decide)

/-- C7: `delete_collection` on an absent collection is a no-op returning
Python `None` (falsy) with the client untouched, and never raises (the
model is a total function); on an existing collection it returns the
client's `True` and the collection no longer exists afterwards. -/
theorem delete_collection_semantics (st : ClientState) (name : String) :
    (clientCollectionExists st name = false →
      delete_collection st name = (none, st))
    ∧ (clientCollectionExists st name = true →
        (delete_collection st name).1 = some true
        ∧ clientCollectionExists (delete_collection st name).2 name = false) := by
  constructor
  · intro h
    simp [delete_collection, h]
  · intro h
    exact ⟨by simp [delete_collection, h],
      by simp [delete_collection, h, clientCollectionExists_delete]⟩

/-- Witness for C7: deleting from the empty client state. -/
theorem delete_collection_semantics_witness :
    clientCollectionExists ⟨[]⟩ "c" = false
    ∧ delete_collection ⟨[]⟩ "c" = (none, ⟨[]⟩) :=
  ⟨by decide, (delete_collection_semantics ⟨[]⟩ "c").1 (by decide)⟩

/-- C9: a `distance_method` string equal to neither enum value leaves
`self.distance_method = None` (the constructor is total, so it completes),
and a later `create_collection` on this provider stores the collection with
a `None` dense distance metric. -/
theorem init_unknown_distance_none (cosineValue dotValue distance_method : String)
    (h1 : distance_method ≠ cosineValue) (h2 : distance_method ≠ dotValue)
    (st : ClientState) (name : String) (size : Nat) :
    initDistanceMethod cosineValue dotValue distance_method = none
    ∧ ((create_collection (initDistanceMethod cosineValue dotValue distance_method)
          st name size true).2).collections.lookup name
      = some ⟨size, none, false⟩ := by
  have h0 : initDistanceMethod cosineValue dotValue distance_method = none := by
    simp [initDistanceMethod, h1, h2]
  refine ⟨h0, ?_⟩
  rw [h0]
  exact lookup_create_reset none st name size

/-- Witness for C9 with the unrecognised string "euclid". -/
theorem init_unknown_distance_none_witness :
    initDistanceMethod "cosine" "dot" "euclid" = none
    ∧ ((create_collection (initDistanceMethod "cosine" "dot" "euclid")
          ⟨[]⟩ "c" 3 true).2).collections.lookup "c"
      = some ⟨3, none, false⟩ :=
  init_unknown_distance_none "cosine" "dot" "euclid" (by decide) (by decide)
    ⟨[]⟩ "c" 3

/-! ### Claim theorems about the search operations -/

/-- C5: `search_by_vector` returns `None` exactly when the dense search
yields zero points; otherwise it returns the non-empty list of
(score, text) results in the client's order. -/
theorem search_by_vector_empty_none (points : List ScoredPoint) :
    (search_by_vector points = none ↔ points = [])
    ∧ (points ≠ [] →
        search_by_vector points
          = some (points.map fun p => RetrievedDocument.mk p.score p.payloadText)
        ∧ points.map (fun p => RetrievedDocument.mk p.score p.payloadText) ≠ []) := by
  constructor
  · by_cases hp : points = []
    · simp [search_by_vector, hp]
    · simp [search_by_vector, List.length_eq_zero, hp]
  · intro hp
    constructor
    · simp [search_by_vector, List.length_eq_zero, hp]
    · simpa using hp

/-- Witness for C5 on a one-point response. -/
theorem search_by_vector_empty_none_witness :
    ([⟨1, "t"⟩] : List ScoredPoint) ≠ []
    ∧ (search_by_vector [⟨1, "t"⟩]
        = some (([⟨1, "t"⟩] : List ScoredPoint).map
            fun p => RetrievedDocument.mk p.score p.payloadText)
      ∧ (([⟨1, "t"⟩] : List ScoredPoint).map
          fun p => RetrievedDocument.mk p.score p.payloadText) ≠ []) :=
  ⟨by simp, (search_by_vector_empty_none [⟨1, "t"⟩]).2 (by simp)⟩

/-- C6: `search_hybrid` returns `None` exactly when the fused candidate
list is empty; otherwise it returns the ranked (score, text) pairs, with
the text taken from each fused record's stored payload. -/
theorem search_hybrid_none_iff_empty {ID : Type} [DecidableEq ID]
    (payloadText : ID → String) (d s : List ID) (dl sl lim : Nat) :
    (search_hybrid payloadText d s dl sl lim = none
      ↔ rrfFuse 60 (d.take dl) (s.take sl) lim = [])
    ∧ (rrfFuse 60 (d.take dl) (s.take sl) lim ≠ [] →
        search_hybrid payloadText d s dl sl lim
          = some ((rrfFuse 60 (d.take dl) (s.take sl) lim).map
              fun r => (rrfScore 60 (d.take dl) (s.take sl) r, payloadText r))) := by
  constructor
  · by_cases hf : rrfFuse 60 (d.take dl) (s.take sl) lim = []
    · simp [search_hybrid, hf]
    · simp [search_hybrid, List.length_eq_zero, hf]
  · intro hf
    simp [search_hybrid, List.length_eq_zero, hf]

/-- Witness for C6 on a one-candidate query. -/
theorem search_hybrid_none_iff_empty_witness :
    rrfFuse 60 ([0].take 1) (([] : List Nat).take 1) 1 ≠ []
    ∧ search_hybrid (fun _ => "x") [0] ([] : List Nat) 1 1 1
        = some ((rrfFuse 60 ([0].take 1) (([] : List Nat).take 1) 1).map
            fun r => (rrfScore 60 ([0].take 1) (([] : List Nat).take 1) r,
              (fun _ => "x") r)) :=
  ⟨by decide,
   (search_hybrid_none_iff_empty (fun _ => "x") [0] [] 1 1 1).2 (by decide)⟩

lemma mem_insertRanked {ID : Type} (score : ID → ℚ) (x a : ID) :
    ∀ l, a ∈ insertRanked score x l ↔ a = x ∨ a ∈ l
  | [] => by simp [insertRanked]
  | y :: ys => by
    by_cases hc : score y < score x
    · simp only [insertRanked, if_pos hc, List.mem_cons]
    · simp only [insertRanked, if_neg hc, List.mem_cons,
        mem_insertRanked score x a ys]
      tauto

lemma pairwise_insertRanked {ID : Type} (score : ID → ℚ) (x : ID) :
    ∀ l, List.Pairwise (fun a b => score b ≤ score a) l →
      List.Pairwise (fun a b => score b ≤ score a) (insertRanked score x l)
  | [], _ => by simp [insertRanked]
  | y :: ys, h => by
    rcases List.pairwise_cons.mp h with ⟨hy, hys⟩
    by_cases hc : score y < score x
    · simp only [insertRanked, if_pos hc]
      refine List.pairwise_cons.mpr ⟨?_, h⟩
      intro z hz
      rcases List.mem_cons.mp hz with rfl | hz2
      · exact le_of_lt hc
      · exact le_trans (hy z hz2) (le_of_lt hc)
    · simp only [insertRanked, if_neg hc]
      refine List.pairwise_cons.mpr ⟨?_, pairwise_insertRanked score x ys hys⟩
      intro z hz
      rcases (mem_insertRanked score x z ys).mp hz with rfl | hz2
      · exact not_lt.mp hc
      · exact hy z hz2

lemma pairwise_sortByScore {ID : Type} (score : ID → ℚ) :
    ∀ l, List.Pairwise (fun a b => score b ≤ score a) (sortByScore score l)
  | [] => by simp [sortByScore]
  | y :: ys => by
    have ih := pairwise_sortByScore score ys
    simpa [sortByScore] using pairwise_insertRanked score y _ ih

lemma mem_sortByScore {ID : Type} (score : ID → ℚ) (a : ID) :
    ∀ l, a ∈ sortByScore score l ↔ a ∈ l
  | [] => by simp [sortByScore]
  | y :: ys => by
    have ih := mem_sortByScore score a ys
    simp only [sortByScore, List.foldr_cons] at ih ⊢
    rw [mem_insertRanked score y a _, ih, List.mem_cons]

/-- C2: `search_hybrid`'s fusion equals the reference Reciprocal Rank
Fusion — every returned candidate comes from the dense or the sparse
prefetch list, the output is sorted by descending `rrfScore` (sum of
`1 / (60 + rank)` over the lists containing the record, 1-based rank) and
truncated to `limit`; and on the spec's worked example (dense `[A,B,C]`,
sparse `[B,D,A]`) the returned ranking is `B, A, D, C` with the reference
scores. -/
theorem search_hybrid_matches_reference_rrf :
    (∀ (d s : List Nat) (lim : Nat),
        List.Pairwise (fun a b => rrfScore 60 d s b ≤ rrfScore 60 d s a)
          (rrfFuse 60 d s lim)
        ∧ (rrfFuse 60 d s lim).length ≤ lim
        ∧ (∀ r, r ∈ rrfFuse 60 d s lim → r ∈ d ∨ r ∈ s))
    ∧ search_hybrid abcdPayload [0, 1, 2] [1, 3, 0] 3 3 10
        = some [(1/62 + 1/61, "B"), (1/61 + 1/63, "A"), (1/62, "D"),
            (1/63, "C")] := by
  constructor
  · intro d s lim
    refine ⟨?_, ?_, ?_⟩
    · exact List.Pairwise.sublist (List.take_sublist _ _)
        (pairwise_sortByScore _ _)
    · exact List.length_take_le _ _
    · intro r hr
      have h1 : r ∈ sortByScore (rrfScore 60 d s) (d ++ s).dedup :=
        List.take_subset _ _ hr
      have h2 : r ∈ (d ++ s).dedup := (mem_sortByScore _ r _).mp h1
      exact List.mem_append.mp (List.mem_dedup.mp h2)
  · with_unfolding_all rfl

/-- Witness for C2: record B (id 1) is returned by the fusion and indeed
comes from one of the two prefetch lists. -/
theorem search_hybrid_matches_reference_rrf_witness :
    (1 : Nat) ∈ rrfFuse 60 [0, 1, 2] [1, 3, 0] 10
    ∧ ((1 : Nat) ∈ [0, 1, 2] ∨ (1 : Nat) ∈ [1, 3, 0]) := by
  have hmem : (1 : Nat) ∈ rrfFuse 60 [0, 1, 2] [1, 3, 0] 10 := by
    have h : rrfFuse 60 [0, 1, 2] [1, 3, 0] 10 = [1, 0, 3, 2] := by
      with_unfolding_all rfl
    rw [h]
    decide
  exact ⟨hmem,
    (search_hybrid_matches_reference_rrf.1 [0, 1, 2] [1, 3, 0] 10).2.2 1 hmem⟩
